import Mathlib

/-!
Shallow embedding of the browser-resident cache & synchronization engine
(CacheManager, DataPreloader, WebSocketSyncManager) of the satellite-task
dashboard, together with theorems checking the specification's claims.

JavaScript numbers are modelled as `Int` (all quantities involved are
integral epoch-milliseconds, counts and ids); `NaN` is modelled by `none`
in an `Option Int` where it can arise.  Time-of-call values of `Date.now()`
are passed in explicitly as a `now : Int` argument, and the environment's
fixed local-timezone offset (minutes east of UTC; the deployment's locale
has no DST) as a `tz : Int` argument.
-/

namespace Aliyun

/-- A JavaScript number that may be `NaN` (`none` = `NaN`). -/
abbrev JsNum := Option Int

/-- The value of a record's `timestamp` property: absent, `NaN`, or a number. -/
inductive JsTs where
  | undef : JsTs
  | nan : JsTs
  | num (n : Int) : JsTs
deriving DecidableEq, Repr

/-- JS truthiness of a numeric `timestamp` property: `undefined`, `NaN` and `0`
are falsy (`if (!record.timestamp)`). -/
def JsTs.falsy : JsTs → Bool
  | .undef => true
  | .nan => true
  | .num n => n == 0

/-- A value that can appear in a record's `start_time` field (the dynamic
argument of `parseTimeToTimestamp`): a number, a string, or a `Date` object
(whose time value is `NaN` for an invalid date).  `null`/`undefined`/other
values are modelled by wrapping in `Option` at the call sites. -/
inductive TimeValue where
  | num (n : Int) : TimeValue
  | str (s : String) : TimeValue
  | date (t : JsNum) : TimeValue
deriving DecidableEq, Repr

/-- JS truthiness of a `start_time` value (`if (standardRecord.start_time)`):
the number `0`, `NaN` and the empty string are falsy; a `Date` object is
always truthy. -/
def TimeValue.truthy : Option TimeValue → Bool
  | none => false
  | some (.num n) => n != 0
  | some (.str s) => s ≠ ""
  | some (.date _) => true

/-! ### Civil-date arithmetic: the ECMAScript `Date(year, month, day, h, m, s)`
constructor.  `daysFromCivil` counts days from 1970-01-01 in the proleptic
Gregorian calendar (standard era/year-of-era computation, floor divisions). -/

/-- Days since the epoch 1970-01-01 of the civil date `(y, m, d)`;
`m` is 1-based and must be in `1..12`, `d` may lie outside its month
(the excess is carried linearly, exactly as ECMAScript `MakeDay` adds
`date - 1` days to the first of the month). -/
def daysFromCivil (y m d : Int) : Int :=
  let y1 : Int := if m ≤ 2 then y - 1 else y
  let era : Int := Int.fdiv y1 400
  let yoe : Int := y1 - era * 400
  let mp : Int := Int.emod (m + 9) 12
  let doy : Int := Int.fdiv (153 * mp + 2) 5 + d - 1
  let doe : Int := yoe * 365 + Int.fdiv yoe 4 - Int.fdiv yoe 100 + doy
  era * 146097 + doe - 719468

/-- The two-digit-year rule of the `Date` constructor: an integer year in
`0..99` is interpreted as `1900 + year`. -/
def yearAdjust (y : Int) : Int :=
  if 0 ≤ y ∧ y ≤ 99 then 1900 + y else y

/-- Epoch milliseconds (as UTC wall time) produced by ECMAScript
`MakeDay`/`MakeDate` for components `(year, monthIndex, day, h, mi, s)`:
the 0-based month index rolls over into the year by floor
division, and out-of-range days/hours/minutes/seconds carry linearly. -/
def jsMakeDateUTC (y mIdx d h mi s : Int) : Int :=
  let yy : Int := yearAdjust y
  let ym : Int := yy + Int.fdiv mIdx 12
  let mn : Int := Int.emod mIdx 12
  daysFromCivil ym (mn + 1) d * 86400000 + h * 3600000 + mi * 60000 + s * 1000

/-- `new Date(year, monthIndex, day, h, mi, s).getTime()` in a locale whose
fixed UTC offset is `tz` minutes east: the components are wall-clock local
time, so the epoch value is the UTC make-date minus the offset. -/
def jsNewDateLocal (tz y mIdx d h mi s : Int) : Int :=
  jsMakeDateUTC y mIdx d h mi s - tz * 60000

/-! ### String utilities shared by the time-parsing code.  (All string
manipulation is carried out on the underlying character list with
structurally recursive functions.) -/

/-- `replace(/[TZ]/g, ' ')`. -/
def replaceTZChars (cs : List Char) : List Char :=
  cs.map (fun c => if c = 'T' ∨ c = 'Z' then ' ' else c)

/-- Does the char list match `[+-]\d{2}:\d{2}` exactly? -/
def isOffsetSuffix : List Char → Bool
  | [sgn, a, b, c, d, e] =>
    (sgn = '+' ∨ sgn = '-') ∧ a.isDigit ∧ b.isDigit ∧ c = ':' ∧ d.isDigit ∧ e.isDigit
  | _ => false

/-- `replace(/[+-]\d{2}:\d{2}$/, '')`: drop a trailing timezone-offset
designator, if present (the `$` anchor means at most one removal). -/
def stripOffsetChars (cs : List Char) : List Char :=
  if 6 ≤ cs.length then
    if isOffsetSuffix (cs.drop (cs.length - 6)) then cs.take (cs.length - 6)
    else cs
  else cs

/-- `trim()`: whitespace removed from both ends. -/
def trimChars (cs : List Char) : List Char :=
  ((cs.dropWhile Char.isWhitespace).reverse.dropWhile Char.isWhitespace).reverse

/-- `split(sep)` on a single separator character. -/
def splitOnChar (sep : Char) : List Char → List (List Char)
  | [] => [[]]
  | c :: cs =>
    if c = sep then [] :: splitOnChar sep cs
    else
      match splitOnChar sep cs with
      | t :: ts => (c :: t) :: ts
      | [] => [[c]]

/-- The cleaning step `replace(/[TZ]/g,' ').replace(/[+-]\d{2}:\d{2}$/,'').trim()`
applied by `parseTimeToTimestamp` (and again inside `parseLocalTime`). -/
def cleanTimeString (s : String) : String :=
  String.mk (trimChars (stripOffsetChars (replaceTZChars s.data)))

/-- Numeric value of a digit character. -/
def digitVal (c : Char) : Int :=
  Int.ofNat (c.toNat - 48)

/-- Greedy regex fragment `(\d{1,2})` immediately followed by the literal
`sep`: try two digits then `sep`, backtrack to one digit then `sep`.
Returns the numeric value and the remainder after the separator. -/
def digits12Before (sep : Char) : List Char → Option (Int × List Char)
  | c1 :: c2 :: c3 :: rest =>
    if c1.isDigit ∧ c2.isDigit ∧ c3 = sep then
      some (digitVal c1 * 10 + digitVal c2, rest)
    else if c1.isDigit ∧ c2 = sep then
      some (digitVal c1, c3 :: rest)
    else none
  | [c1, c2] =>
    if c1.isDigit ∧ c2 = sep then some (digitVal c1, []) else none
  | _ => none

/-- Greedy regex fragment `(\d{1,2})` with no follow-up constraint. -/
def digits12 : List Char → Option (Int × List Char)
  | c1 :: c2 :: rest =>
    if c1.isDigit ∧ c2.isDigit then some (digitVal c1 * 10 + digitVal c2, rest)
    else if c1.isDigit then some (digitVal c1, c2 :: rest)
    else none
  | [c1] => if c1.isDigit then some (digitVal c1, []) else none
  | [] => none

/-- Regex fragment `\d{4}` followed by the literal `-`. -/
def year4Dash : List Char → Option (Int × List Char)
  | a :: b :: c :: d :: dash :: rest =>
    if a.isDigit ∧ b.isDigit ∧ c.isDigit ∧ d.isDigit ∧ dash = '-' then
      some (digitVal a * 1000 + digitVal b * 100 + digitVal c * 10 + digitVal d, rest)
    else none
  | _ => none

/-- Regex fragment `\s+`: at least one whitespace character. -/
def skipWs1 : List Char → Option (List Char)
  | c :: rest =>
    if c.isWhitespace then some (rest.dropWhile Char.isWhitespace) else none
  | [] => none

/-- The optional time group `(?:\s+(\d{1,2}):(\d{1,2}):(\d{1,2}))?` of the
first `parseLocalTime` regex.  `none` means the group matched empty. -/
def matchTimeGroup (cs : List Char) : Option (Int × Int × Int) := do
  let rest ← skipWs1 cs
  let (h, rest) ← digits12Before ':' rest
  let (mi, rest) ← digits12Before ':' rest
  let (s, _) ← digits12 rest
  pure (h, mi, s)

/-- The first `parseLocalTime` regex
`^(\d{4})-(\d{1,2})-(\d{1,2})(?:\s+(\d{1,2}):(\d{1,2}):(\d{1,2}))?`
(no end anchor: trailing characters are ignored; the missing time group
defaults the clock components to `0`). -/
def matchYmdOptHms (cs : List Char) : Option (Int × Int × Int × Int × Int × Int) := do
  let (y, rest) ← year4Dash cs
  let (mo, rest) ← digits12Before '-' rest
  let (d, rest) ← digits12 rest
  match matchTimeGroup rest with
  | some (h, mi, s) => pure (y, mo, d, h, mi, s)
  | none => pure (y, mo, d, 0, 0, 0)

/-- The second `parseLocalTime` regex
`^(\d{4})-(\d{1,2})-(\d{1,2})\s+(\d{1,2}):(\d{1,2}):(\d{1,2})`
(mandatory time part). -/
def matchYmdHms (cs : List Char) : Option (Int × Int × Int × Int × Int × Int) := do
  let (y, rest) ← year4Dash cs
  let (mo, rest) ← digits12Before '-' rest
  let (d, rest) ← digits12 rest
  let (h, mi, s) ← matchTimeGroup rest
  pure (y, mo, d, h, mi, s)

/-- JS `Number(s)` restricted to the shapes that can reach the date-only
fallback of `parseLocalTime`: optional sign, decimal digits, optional
fractional part (truncated toward zero, as the `Date` constructor's
`ToInteger` does).  The empty / all-whitespace string is `0`; anything
else (hex, exponent forms and the like, which the data never produces) is
`NaN` (`none`). -/
def jsNumberToIntArg (cs : List Char) : Option Int :=
  let t := trimChars cs
  if t = [] then some 0
  else
    let (neg, ds) : Bool × List Char :=
      match t with
      | '-' :: rest => (true, rest)
      | '+' :: rest => (false, rest)
      | rest => (false, rest)
    let intPart := ds.takeWhile Char.isDigit
    let rest := ds.dropWhile Char.isDigit
    let fracOk : Bool :=
      match rest with
      | [] => true
      | '.' :: fs => fs.all Char.isDigit
      | _ => false
    if intPart ≠ [] ∧ fracOk then
      let v : Int := intPart.foldl (fun a c => a * 10 + digitVal c) 0
      some (if neg then -v else v)
    else none

/-- `parseLocalTime(timeStr)` of `CacheManager` (the identical copy in
`DataPreloader` is the same function): returns the time value of the
resulting `Date`, `none` for an Invalid Date.  Branch 1 matches
`YYYY-M-D` with an optional ` H:M:S`; branch 2 re-cleans the string and
requires a mandatory time part; the final fallback splits the first
space-separated token on `-` and feeds the first three `Number`-converted
pieces to the `Date` constructor at midnight. -/
def parseLocalTime (tz : Int) (timeStr : String) : Option Int :=
  if timeStr = "" then none
  else
    match matchYmdOptHms timeStr.data with
    | some (y, mo, d, h, mi, s) => some (jsNewDateLocal tz y (mo - 1) d h mi s)
    | none =>
      let cleanStr := cleanTimeString timeStr
      match matchYmdHms cleanStr.data with
      | some (y, mo, d, h, mi, s) => some (jsNewDateLocal tz y (mo - 1) d h mi s)
      | none =>
        let dateOnly := timeStr.data.takeWhile (fun c => c ≠ ' ')
        let dateParts := (splitOnChar '-' dateOnly).map jsNumberToIntArg
        match dateParts with
        | some p0 :: some p1 :: some p2 :: _ =>
          some (jsNewDateLocal tz p0 (p1 - 1) p2 0 0 0)
        | none :: _ :: _ :: _ => none
        | _ :: none :: _ :: _ => none
        | _ :: _ :: none :: _ => none
        | _ => none

/-- `parseTimeToTimestamp(timeValue)` of `CacheManager` (and its identical
copy in `DataPreloader`): numbers at most `10^12` are seconds and get
multiplied by 1000, larger numbers are epoch-milliseconds already; strings
are cleaned and parsed as local wall-clock time, with `0` for anything
unparseable; a `Date` contributes its `getTime()` (possibly `NaN`); any
other value (`null`, `undefined`, objects) yields `0`. -/
def parseTimeToTimestamp (tz : Int) (timeValue : Option TimeValue) : JsNum :=
  match timeValue with
  | some (.num n) => some (if 1000000000000 < n then n else n * 1000)
  | some (.str s) =>
    let cleanTimeStr := cleanTimeString s
    match parseLocalTime tz cleanTimeStr with
    | none => some 0
    | some t => some t
  | some (.date t) => t
  | none => some 0

/-! ### The ECMAScript string form of the `Date` constructor.

`updateRecord` and `batchUpdateRecords` derive a missing `timestamp` with
`new Date(record.start_time).getTime()`, the builtin parser, NOT the
timezone-naive `parseTimeToTimestamp`.  This models the builtin on the
formats the data uses: the ISO date `YYYY-MM-DD` (interpreted as UTC
midnight), `YYYY-MM-DDTHH:MM[:SS]` with optional `Z` or `±hh:mm`
designator (UTC / explicit offset; local time when absent), and the
engine-fallback form `YYYY-MM-DD HH:MM:SS` (local time); anything else is
an Invalid Date. -/

/-- Exactly `n` digits, returning their value and the remainder. -/
def fixedDigits : Nat → List Char → Option (Int × List Char)
  | 0, cs => some (0, cs)
  | n + 1, c :: cs =>
    if c.isDigit then
      (fixedDigits n cs).map (fun p => (digitVal c * (10 : Int) ^ n + p.1, p.2))
    else none
  | _ + 1, [] => none

/-- `HH:MM` with an optional `:SS`, as in the ISO time part. -/
def ecmaTimePart (cs : List Char) : Option (Int × Int × List Char × Int) := do
  let (h, rest) ← fixedDigits 2 cs
  match rest with
  | ':' :: rest' => do
    let (mi, rest'') ← fixedDigits 2 rest'
    match rest'' with
    | ':' :: rest3 => do
      let (s, rest4) ← fixedDigits 2 rest3
      pure (h, mi, rest4, s)
    | _ => pure (h, mi, rest'', 0)
  | _ => none

/-- The timezone designator: empty (local), `Z` (UTC) or `±hh:mm`.
Returns the offset in minutes east of UTC, `none` meaning "local". -/
def ecmaOffsetPart : List Char → Option (Option Int)
  | [] => some none
  | ['Z'] => some (some 0)
  | sgn :: a :: b :: ':' :: c :: d :: [] =>
    if (sgn = '+' ∨ sgn = '-') ∧ a.isDigit ∧ b.isDigit ∧ c.isDigit ∧ d.isDigit then
      let m : Int := (digitVal a * 10 + digitVal b) * 60 + (digitVal c * 10 + digitVal d)
      some (some (if sgn = '-' then -m else m))
    else none
  | _ => none

/-- `new Date(s).getTime()` for a string, in a locale at fixed offset `tz`
minutes east of UTC. -/
def ecmaDateParse (tz : Int) (s : String) : JsTs :=
  match (do
    let (y, rest) ← fixedDigits 4 s.data
    match rest with
    | '-' :: rest1 => do
      let (mo, rest2) ← fixedDigits 2 rest1
      match rest2 with
      | '-' :: rest3 => do
        let (d, rest4) ← fixedDigits 2 rest3
        match rest4 with
        | [] => pure (jsMakeDateUTC y (mo - 1) d 0 0 0)
        | 'T' :: rest5 => do
          let (h, mi, rest6, sec) ← ecmaTimePart rest5
          let off ← ecmaOffsetPart rest6
          match off with
          | some o => pure (jsMakeDateUTC y (mo - 1) d h mi sec - o * 60000)
          | none => pure (jsNewDateLocal tz y (mo - 1) d h mi sec)
        | ' ' :: rest5 => do
          let (h, mi, rest6, sec) ← ecmaTimePart rest5
          match rest6 with
          | [] => pure (jsNewDateLocal tz y (mo - 1) d h mi sec)
          | _ => none
        | _ => none
      | _ => none
    | _ => none : Option Int) with
  | some t => .num t
  | none => .nan

/-! ### The data model: records, the keyed record table, metadata and the
two aggregate caches, mirroring the IndexedDB layout that `CacheManager`
owns (`allData` object store keyed by `id`, the `allDataMeta` metadata
singleton, `statisticsCache` and `dataStoreCache`). -/

/-- A business record as the cache stores it.  Only the fields the engine
itself reads are modelled individually; every other business field is the
opaque `payload`.  `Option` models an absent property. -/
structure Rec where
  id : Option String
  plan_id : Option String
  start_time : Option TimeValue
  timestamp : JsTs
  payload : String
deriving DecidableEq, Repr

/-- Insert-or-overwrite by key, the semantics of IndexedDB `put` on a
store with a key path.  (IndexedDB keeps records in key order; the store
is only ever read back here through keyed lookup, so the list order
carries no meaning and the binding is simply placed in front.) -/
def putAssoc {α : Type} (st : List (String × α)) (k : String) (v : α) :
    List (String × α) :=
  (k, v) :: st.filter (fun p => p.1 ≠ k)

/-- Key lookup in an object store. -/
def lookupAssoc {α : Type} (st : List (String × α)) (k : String) : Option α :=
  (st.find? (fun p => p.1 = k)).map (fun p => p.2)

/-- IndexedDB `delete`: succeeds whether or not the key is present. -/
def delAssoc {α : Type} (st : List (String × α)) (k : String) :
    List (String × α) :=
  st.filter (fun p => p.1 ≠ k)

/-- The synchronous put loop over a list of records, keyed by each
record's `id` (the `""` default is never reached at the call sites, which
guard or guarantee a present id). -/
def putFold (st : List (String × Rec)) (rs : List Rec) : List (String × Rec) :=
  rs.foldl (fun acc r => putAssoc acc (r.id.getD "") r) st

/-- The `allDataMeta` singleton.  Fields are `Option` because the various
creation sites initialise different subsets (`appendData`'s default has no
`lastSyncTime`, only `saveLastChangeLogId`'s has `lastChangeLogId`). -/
structure Meta where
  totalCount : Option Int
  lastUpdated : Option Int
  lastSyncTime : Option Int
  lastChangeLogId : Option Nat
deriving DecidableEq, Repr

/-- An entry of the `statisticsCache` store (`stats_bucket`,
`stats_customer`): the aggregate payload is opaque for our purposes. -/
structure StatsEntry where
  data : String
  timestamp : Int
deriving DecidableEq, Repr

/-- An entry of the `dataStoreCache` store (`datastore_<groupType>`): the
serialized buckets are opaque for our purposes. -/
structure DSEntry where
  buckets : String
  recordCount : Nat
  timestamp : Int
deriving DecidableEq, Repr

/-- The local database owned by `CacheManager`. -/
structure DB where
  store : List (String × Rec)
  meta : Option Meta
  statsCache : List (String × StatsEntry)
  dataStoreCache : List (String × DSEntry)
deriving DecidableEq, Repr

/-- The default metadata object created by `updateRecord` /
`batchUpdateRecords` when none exists. -/
def defaultMetaFull (now : Int) : Meta :=
  { totalCount := some 0, lastUpdated := some now, lastSyncTime := some now,
    lastChangeLogId := none }

/-- `if (!record.timestamp) record.timestamp = new Date(record.start_time).getTime()`
— the timestamp derivation shared by `updateRecord` and
`batchUpdateRecords`: only a falsy (`undefined`/`NaN`/`0`) timestamp is
recomputed, and through the builtin `Date` string parser. -/
def fixTimestamp (tz : Int) (record : Rec) : Rec :=
  if record.timestamp.falsy then
    { record with timestamp :=
        match record.start_time with
        | none => .nan
        | some (.num n) => .num n
        | some (.date none) => .nan
        | some (.date (some v)) => .num v
        | some (.str s) => ecmaDateParse tz s }
  else record

/-- `CacheManager.updateRecord`: single-record upsert used by the live
push channel.  `none` models the rejected promise when the record has no
`id` (IndexedDB `put` fails without its key path); on success the record
is `put` and the metadata's `lastUpdated`/`lastSyncTime` are refreshed
(`totalCount` is NOT touched). -/
def updateRecord (tz now : Int) (record : Rec) (db : DB) : Option DB :=
  let r := fixTimestamp tz record
  match r.id with
  | none => none
  | some k =>
    let meta0 := db.meta.getD (defaultMetaFull now)
    some { db with
      store := putAssoc db.store k r,
      meta := some { meta0 with lastUpdated := some now, lastSyncTime := some now } }

/-- `CacheManager.batchUpdateRecords`: batch upsert used by catch-up and
the `batch_update` push message.  An empty input returns `0` without
touching anything.  A record without an `id` makes the transaction abort
and the promise reject (`none`), rolling every `put` back; otherwise all
records are `put` in order, metadata is refreshed, and the success count
(every `put` succeeds) is returned. -/
def batchUpdateRecords (tz now : Int) (records : List Rec) (db : DB) :
    Option (DB × Nat) :=
  if records.isEmpty then some (db, 0)
  else
    let rs := records.map (fixTimestamp tz)
    if rs.all (fun r => r.id.isSome) then
      let meta0 := db.meta.getD (defaultMetaFull now)
      some ({ db with
        store := putFold db.store rs,
        meta := some { meta0 with lastUpdated := some now, lastSyncTime := some now } },
        records.length)
    else none

/-- JS `a || b` on optional strings (the empty string is falsy). -/
def jsOrStr (a b : Option String) : Option String :=
  match a with
  | some s => if s = "" then b else some s
  | none => b

/-- Storing a JS number (possibly `NaN`) into a record's `timestamp`
property. -/
def jsNumToTs : JsNum → JsTs
  | none => .nan
  | some n => .num n

/-- The generated fallback id `record_<Date.now()>_<appendedCount>` of
`appendData`; the `appendedCount` success counter is still `0` while the
synchronous put loop runs, so the suffix is always `_0`. -/
def appendGenId (now : Int) : String :=
  "record_" ++ toString now ++ "_0"

/-- The field standardization shared verbatim by `CacheManager.appendData`
and `DataPreloader.preprocessRecords`: the object literal computes
`id: record.plan_id || ... || record.id || <generated>` but the trailing
`...record` spread overrides it with the record's own `id` whenever that
property exists, so an existing `id` always wins; then, when `start_time`
is truthy, `timestamp` is recomputed unconditionally via
`parseTimeToTimestamp` (overriding any spread-in value). -/
def standardizeRecord (tz : Int) (gen : String) (record : Rec) : Rec :=
  let id' : Option String :=
    match record.id with
    | some s => some s
    | none => jsOrStr record.plan_id (some gen)
  let r := { record with id := id' }
  if TimeValue.truthy r.start_time then
    { r with timestamp := jsNumToTs (parseTimeToTimestamp tz r.start_time) }
  else r

/-- `CacheManager.appendData`: append/upsert path used by the background
history loader and the legacy time-window catch-up.  After
standardization every record has an id, so all `put`s succeed; the
metadata's `totalCount` is increased by the number of successful `put`s —
even when a `put` merely overwrote an existing key — and `lastUpdated`
(but NOT `lastSyncTime`) is refreshed. -/
def appendData (tz now : Int) (newRecords : List Rec) (db : DB) : DB × Nat :=
  if newRecords.isEmpty then (db, 0)
  else
    let rs := newRecords.map (standardizeRecord tz (appendGenId now))
    let store' := putFold db.store rs
    let meta0 := db.meta.getD
      { totalCount := some 0, lastUpdated := some now, lastSyncTime := none,
        lastChangeLogId := none }
    let n : Int := newRecords.length
    ({ db with
        store := store',
        meta := some { meta0 with
          totalCount := some (meta0.totalCount.getD 0 + n),
          lastUpdated := some now } },
      newRecords.length)

/-- `CacheManager.deleteRecord`: IndexedDB `delete` succeeds whether or
not the key exists; the metadata, when present, gets fresh
`lastUpdated`/`lastSyncTime` (`totalCount` is NOT touched); when absent it
is left absent. -/
def deleteRecord (now : Int) (recordId : String) (db : DB) : DB :=
  { db with
    store := delAssoc db.store recordId,
    meta := db.meta.map (fun m =>
      { m with lastUpdated := some now, lastSyncTime := some now }) }

/-- `CacheManager.getLastChangeLogId`: `meta?.lastChangeLogId || 0`. -/
def getLastChangeLogId (db : DB) : Nat :=
  (db.meta.bind Meta.lastChangeLogId).getD 0

/-- `CacheManager.saveLastChangeLogId`: stores the given cursor
unconditionally (no monotonicity guard in the store layer) and refreshes
`lastUpdated`/`lastSyncTime`. -/
def saveLastChangeLogId (now : Int) (changeLogId : Nat) (db : DB) : DB :=
  let meta0 := db.meta.getD
    { totalCount := some 0, lastUpdated := some now, lastSyncTime := some now,
      lastChangeLogId := some 0 }
  { db with meta := some { meta0 with
      lastChangeLogId := some changeLogId,
      lastUpdated := some now, lastSyncTime := some now } }

/-- `CacheManager.saveStatistics`: caches a precomputed aggregate under
`stats_<type>`. -/
def saveStatistics (now : Int) (type : String) (data : String) (db : DB) : DB :=
  { db with statsCache :=
      putAssoc db.statsCache ("stats_" ++ type) { data := data, timestamp := now } }

/-- `CacheManager.getStatistics`: returns the cached aggregate under
`stats_<type>` whenever the entry exists — there is no freshness or
version check on this path. -/
def getStatistics (type : String) (db : DB) : Option String :=
  (lookupAssoc db.statsCache ("stats_" ++ type)).map StatsEntry.data

/-- `CacheManager.clearStatisticsCache`. -/
def clearStatisticsCache (db : DB) : DB :=
  { db with statsCache := [] }

/-- `CacheManager.saveDataStoreBuckets`. -/
def saveDataStoreBuckets (now : Int) (groupType : String) (buckets : String)
    (recordCount : Nat) (db : DB) : DB :=
  let entry : DSEntry :=
    { buckets := buckets, recordCount := recordCount, timestamp := now }
  { db with dataStoreCache :=
      putAssoc db.dataStoreCache ("datastore_" ++ groupType) entry }

/-- JS truthiness of the optional `lastSyncTime` argument
(`if (lastSyncTime && cacheData.timestamp < lastSyncTime)`). -/
def jsTruthyIntOpt : Option Int → Bool
  | none => false
  | some n => n != 0

/-- `CacheManager.loadDataStoreBuckets`: returns the cached bucket entry
unless it is absent, older than a truthy `lastSyncTime` argument, or more
than 24 hours old. -/
def loadDataStoreBuckets (now : Int) (groupType : String)
    (lastSyncTime : Option Int) (db : DB) : Option DSEntry :=
  match lookupAssoc db.dataStoreCache ("datastore_" ++ groupType) with
  | none => none
  | some cacheData =>
    if jsTruthyIntOpt lastSyncTime ∧ cacheData.timestamp < lastSyncTime.getD 0 then
      none
    else if 86400000 < now - cacheData.timestamp then none
    else some cacheData

/-- `CacheManager.clearDataStoreBucketsCache`. -/
def clearDataStoreBucketsCache (db : DB) : DB :=
  { db with dataStoreCache := [] }

/-! ### The bulk-load normalization path (`DataPreloader.preprocessRecords`,
duplicated logic of `appendData`'s standardization). -/

/-- `(a.timestamp || 0)`: the sort key used on preprocessed records. -/
def tsOrZero (r : Rec) : Int :=
  match r.timestamp with
  | .num n => n
  | _ => 0

/-- Stable insertion into an ascending-by-timestamp list. -/
def insertByTs (r : Rec) : List Rec → List Rec
  | [] => [r]
  | x :: xs => if tsOrZero r ≤ tsOrZero x then r :: x :: xs else x :: insertByTs r xs

/-- Stable ascending sort by `(timestamp || 0)`, modelling the
`processed.sort((a, b) => (a.timestamp || 0) - (b.timestamp || 0))` call. -/
def sortByTs : List Rec → List Rec
  | [] => []
  | x :: xs => insertByTs x (sortByTs xs)

/-- `DataPreloader.preprocessRecords`: standardizes field names, recomputes
`timestamp` from `start_time` via `parseTimeToTimestamp` (the same
standardization object literal as `appendData`; its generated fallback id
uses `Date.now()` and `Math.random()`, abstracted as `gen`), then sorts
ascending by timestamp. -/
def preprocessRecords (tz : Int) (gen : String) (records : List Rec) : List Rec :=
  sortByTs (records.map (standardizeRecord tz gen))

/-! ### The sync controller (`WebSocketSyncManager`): catch-up by change-log
id and the push-channel message handlers. -/

/-- The result object of the catch-up entry points. -/
structure SyncResult where
  hasNewData : Bool
  count : Nat
  maxChangeLogId : Option Nat
deriving DecidableEq, Repr

/-- The outcome of one incremental request
`GET ?sinceChangeLogId=&recentDays=30&limit=10000`: the fetch can throw,
return a non-OK status, return a body without `success`/`data` (or with a
shape that makes the handler throw), or succeed with a records list, a
`maxChangeLogId` watermark and a filtered count. -/
inductive CatchupResponse where
  | netError : CatchupResponse
  | httpError : CatchupResponse
  | badBody : CatchupResponse
  | ok (records : List Rec) (maxChangeLogId : Nat) (filteredCount : Nat) : CatchupResponse
deriving DecidableEq, Repr

/-- The `{hasNewData: false, count: 0}` result shared by every
no-op/failure path. -/
def noNewData : SyncResult :=
  { hasNewData := false, count := 0, maxChangeLogId := none }

/-- The conversion `records.map(record => ({...record, id: record.plan_id}))`
applied to catch-up payloads: `id` is written after the spread, so it is
always `plan_id` (even when that is absent). -/
def convertCatchupRecord (r : Rec) : Rec :=
  { r with id := r.plan_id }

/-- `WebSocketSyncManager.performCatchupSyncByChangeLogId`: every failure
(thrown fetch, non-OK status, malformed body, empty records list, or an
aborted-and-rolled-back batch transaction) leaves the database unchanged
and resolves to `noNewData`; a non-empty success applies
`batchUpdateRecords` to the converted records and then persists the
response's `maxChangeLogId` via `saveLastChangeLogId`.  The
`_lastChangeLogId` argument only feeds the request URL. -/
def performCatchupSyncByChangeLogId (tz now : Int) (_lastChangeLogId : Nat)
    (resp : CatchupResponse) (db : DB) : DB × SyncResult :=
  match resp with
  | .netError => (db, noNewData)
  | .httpError => (db, noNewData)
  | .badBody => (db, noNewData)
  | .ok records maxChangeLogId _ =>
    if records.isEmpty then (db, noNewData)
    else
      let converted := records.map convertCatchupRecord
      match batchUpdateRecords tz now converted db with
      | none => (db, noNewData)
      | some (db1, _) =>
        (saveLastChangeLogId now maxChangeLogId db1,
          { hasNewData := true, count := records.length,
            maxChangeLogId := some maxChangeLogId })

/-- `WebSocketSyncManager.checkAndPerformCatchup`: reads the persisted
cursor; at the initial value `0` it returns `noNewData` immediately
without issuing any request (first load is owned by the pipeline loader);
otherwise it delegates to `performCatchupSyncByChangeLogId`. -/
def checkAndPerformCatchup (tz now : Int) (resp : CatchupResponse) (db : DB) :
    DB × SyncResult :=
  let lastChangeLogId := getLastChangeLogId db
  if lastChangeLogId = 0 then (db, noNewData)
  else performCatchupSyncByChangeLogId tz now lastChangeLogId resp db

/-- `operation.toLowerCase()` (ASCII operation names). -/
def jsToLower (s : String) : String :=
  String.mk (s.data.map Char.toLower)

/-- `WebSocketSyncManager.handleDataChange`: dispatches a `data_change`
push message case-insensitively; `insert`/`update` upsert via
`updateRecord`, `delete` deletes by `record.id` (a missing id makes the
IndexedDB call throw, which the surrounding `try` swallows); unknown
operations and all errors leave the store untouched. -/
def handleDataChange (tz now : Int) (operation : String) (record : Rec)
    (db : DB) : DB :=
  let op := jsToLower operation
  if op = "insert" ∨ op = "update" then
    match updateRecord tz now record db with
    | some db1 => db1
    | none => db
  else if op = "delete" then
    match record.id with
    | some k => deleteRecord now k db
    | none => db
  else db

/-- `WebSocketSyncManager.handleBatchUpdate`: a `batch_update` push message
applies `batchUpdateRecords`; a rejected batch is caught and leaves the
store untouched. -/
def handleBatchUpdate (tz now : Int) (records : List Rec) (db : DB) : DB :=
  match batchUpdateRecords tz now records db with
  | some (db1, _) => db1
  | none => db

/-! ### Sequences of catch-up attempts (for the cursor-monotonicity claim). -/

/-- One catch-up attempt against the current database, querying with the
currently persisted cursor as real callers do. -/
def catchupStep (tz now : Int) (db : DB) (resp : CatchupResponse) : DB :=
  (performCatchupSyncByChangeLogId tz now (getLastChangeLogId db) resp db).1

/-- A sequence of catch-up attempts. -/
def runCatchups (tz now : Int) (db : DB) (resps : List CatchupResponse) : DB :=
  resps.foldl (catchupStep tz now) db

/-- The `maxChangeLogId` of a response if that attempt actually applies
(successful, non-empty, and every record carries the `plan_id` the
conversion needs for the batch transaction to commit); `none` otherwise. -/
def appliedMax : CatchupResponse → Option Nat
  | .ok records m _ =>
    if ¬records.isEmpty ∧ records.all (fun r => r.plan_id.isSome) then some m
    else none
  | _ => none

/-- The watermarks of the applying attempts of a sequence. -/
def appliedMaxes (resps : List CatchupResponse) : List Nat :=
  resps.filterMap appliedMax

/-- The incremental endpoint's contract (spec §6: `maxChangeLogId` is the
watermark to persist next, and returned records are the changes AFTER the
`sinceChangeLogId` the request carried): along a run, every applying
response's watermark is at least the cursor the request was made with. -/
def cursorContract (tz now : Int) (db : DB) : List CatchupResponse → Bool
  | [] => true
  | r :: rs =>
    (match appliedMax r with
     | some m => decide (getLastChangeLogId db ≤ m)
     | none => true) &&
    cursorContract tz now (catchupStep tz now db r) rs

/-! ### The heartbeat / reconnect state machine of `WebSocketSyncManager`.

`tick` is one firing of the 30-second `startHeartbeat` interval; it runs
only while the interval is armed (`heartbeatOn`) and, per its own guard,
while the socket is OPEN.  Reaching `maxMissedHeartbeats` calls
`ws.close()`, which makes the socket leave the OPEN state at once and
makes the environment deliver one `close` event later (`closePending`).
`handleClose` stops the heartbeat and schedules a reconnect only for a
non-clean close when no reconnect is pending (`scheduleReconnect`'s
`isReconnecting` guard); `reconnectsScheduled` counts armed reconnect
timers.  A `heartbeat` push message resets the missed counter. -/

structure WsState where
  wsOpen : Bool
  closePending : Bool
  heartbeatOn : Bool
  missedHeartbeats : Nat
  isReconnecting : Bool
  reconnectsScheduled : Nat
deriving DecidableEq, Repr

inductive WsEvent where
  | tick : WsEvent
  | heartbeatMsg : WsEvent
  | closeEvent (wasClean : Bool) : WsEvent
deriving DecidableEq, Repr

/-- `this.maxMissedHeartbeats = 3`. -/
def maxMissedHeartbeats : Nat := 3

def wsStep (s : WsState) (e : WsEvent) : WsState :=
  match e with
  | .tick =>
    if s.heartbeatOn ∧ s.wsOpen then
      let missed := s.missedHeartbeats + 1
      if maxMissedHeartbeats ≤ missed then
        { s with missedHeartbeats := missed, wsOpen := false, closePending := true }
      else { s with missedHeartbeats := missed }
    else s
  | .heartbeatMsg => { s with missedHeartbeats := 0 }
  | .closeEvent wasClean =>
    if s.closePending then
      let s1 := { s with closePending := false, heartbeatOn := false }
      if ¬wasClean ∧ ¬s1.isReconnecting then
        { s1 with
          isReconnecting := true,
          reconnectsScheduled := s1.reconnectsScheduled + 1 }
      else s1
    else s

/-- State right after `handleOpen`: connected, heartbeat armed, counters
reset. -/
def wsConnectedState : WsState :=
  { wsOpen := true, closePending := false, heartbeatOn := true,
    missedHeartbeats := 0, isReconnecting := false, reconnectsScheduled := 0 }

def wsRun (s : WsState) (es : List WsEvent) : WsState :=
  es.foldl wsStep s

/-! ### The partition-lock protocol of the bulk-load storage workers
(`parallelShardedLoad` in `DataPreloader`).

JavaScript's event loop makes every code segment between `await`
suspension points atomic.  The check `lockedPartitions.has(partitionId)`
followed by `lockedPartitions.add(partitionId)` has no `await` in between,
so `acquire` is one atomic test-and-set; each batched
`storePartitionedBatch` call is an `await` (`drain`, which also covers a
failed write, whose exception is caught); the `finally` block removes the
id from the lock set on both the success and the failure path
(`release`).  Download workers append to the per-partition task queues
(`push`).  The v12 three-layer variant routes locking through
`cacheManager.tryLockPartition` / `unlockPartition`, whose bodies are not
part of the sources at hand; per the spec's concurrency model ("cooperative
lock-set", "try-lock and move on") they perform the same atomic
test-and-set on a shared lock set, so this transition system models both
variants. -/

inductive WStatus where
  | idle : WStatus
  | holding (partitionId : String) : WStatus
deriving DecidableEq, Repr

structure LoadState where
  lockedPartitions : List String
  pending : String → Nat
  workers : Nat → WStatus

inductive LoadStep : LoadState → LoadState → Prop where
  | push {s : LoadState} (p : String) (n : Nat) :
      LoadStep s { s with pending := Function.update s.pending p (s.pending p + n) }
  | acquire {s : LoadState} (i : Nat) (p : String) :
      s.workers i = .idle →
      s.pending p ≠ 0 →
      p ∉ s.lockedPartitions →
      LoadStep s { s with
        lockedPartitions := p :: s.lockedPartitions,
        workers := Function.update s.workers i (.holding p) }
  | drain {s : LoadState} (i : Nat) (p : String) (k : Nat) :
      s.workers i = .holding p →
      LoadStep s { s with pending := Function.update s.pending p (s.pending p - k) }
  | release {s : LoadState} (i : Nat) (p : String) :
      s.workers i = .holding p →
      LoadStep s { s with
        lockedPartitions := s.lockedPartitions.erase p,
        workers := Function.update s.workers i .idle }

/-- Start of the persist stage: no partition locked, all workers scanning. -/
def loadStart (pending0 : String → Nat) : LoadState :=
  { lockedPartitions := [], pending := pending0, workers := fun _ => .idle }

inductive LoadReachable (pending0 : String → Nat) : LoadState → Prop where
  | start : LoadReachable pending0 (loadStart pending0)
  | step {s t : LoadState} :
      LoadReachable pending0 s → LoadStep s t → LoadReachable pending0 t

/-- The partition-lock invariant: the lock set has no duplicates, a
partition is in the lock set exactly while some worker is inside its
locked region (so locks are released even on the failure path), and no two
workers are ever inside the locked region of the same partition. -/
def LockInv (s : LoadState) : Prop :=
  s.lockedPartitions.Nodup ∧
  (∀ p, p ∈ s.lockedPartitions ↔ ∃ i, s.workers i = .holding p) ∧
  (∀ i j p, s.workers i = .holding p → s.workers j = .holding p → i = j)

/-- A sync-manager state with the heartbeat interval cleared and no close
event in flight: from here no further reconnect can be scheduled. -/
def wsQuiesced (s : WsState) : Prop :=
  s.heartbeatOn = false ∧ s.closePending = false

/-! ### Concrete fixtures used by witnesses and counterexamples. -/

def emptyDB : DB :=
  { store := [], meta := none, statsCache := [], dataStoreCache := [] }

def exMeta : Meta :=
  { totalCount := some 10, lastUpdated := some 1, lastSyncTime := some 1,
    lastChangeLogId := some 100 }

/-- A record that needs no timestamp derivation. -/
def exRecA : Rec :=
  { id := some "A", plan_id := some "A", start_time := none,
    timestamp := .num 1, payload := "a" }

/-- A catch-up payload record carrying only `plan_id`, as served by the
incremental endpoint. -/
def planRec (pid : String) : Rec :=
  { id := none, plan_id := some pid, start_time := none,
    timestamp := .num 1, payload := "" }

/-- A database holding previously cached aggregates. -/
def exStatsDb : DB :=
  { store := [], meta := some exMeta,
    statsCache := [("stats_bucket", { data := "stale", timestamp := 1000 })],
    dataStoreCache := [("datastore_day", { buckets := "b", recordCount := 3, timestamp := 1000 })] }

/-- A record whose `start_time` parses and that already carries a (wrong)
truthy `timestamp`. -/
def exTsRec : Rec :=
  { id := some "A", plan_id := some "A",
    start_time := some (.str "2024-01-01 00:00:00"),
    timestamp := .num 123, payload := "" }

/-- Catch-up sequence for the cursor witness: an applying response with
watermark 105, a failed attempt, an applying response with watermark 120. -/
def exCatchupResps : List CatchupResponse :=
  [.ok [planRec "A"] 105 0, .httpError, .ok [planRec "B", planRec "C"] 120 0]

/-- The spec's catch-up scenario payload: 5 records served with
`maxChangeLogId = 105`. -/
def exCatchup5 : List Rec :=
  [planRec "P1", planRec "P2", planRec "P3", planRec "P4", planRec "P5"]

def exLoadPending : String → Nat := fun _ => 1

/-- The state after worker 0 acquires partition `2024_Q1` from the start
state. -/
def exLoadState : LoadState :=
  { loadStart exLoadPending with
    lockedPartitions := "2024_Q1" :: (loadStart exLoadPending).lockedPartitions,
    workers := Function.update (loadStart exLoadPending).workers 0 (.holding "2024_Q1") }

/-! # Theorems

First, library-style lemmas about the keyed store and the shared
operations; then one theorem per specification claim. -/

@[simp]
theorem fixTimestamp_id (tz : Int) (r : Rec) : (fixTimestamp tz r).id = r.id := by
  unfold fixTimestamp
  split <;> rfl

theorem lookupAssoc_putAssoc_self {α : Type} (st : List (String × α)) (k : String) (v : α) :
    lookupAssoc (putAssoc st k v) k = some v := by
  simp [lookupAssoc, putAssoc, List.find?]

theorem find?_filter_ne {α : Type} {k k' : String} (h : k' ≠ k)
    (st : List (String × α)) :
    (st.filter (fun p => p.1 ≠ k)).find? (fun p => p.1 = k')
      = st.find? (fun p => p.1 = k') := by
  induction st with
  | nil => rfl
  | cons a st ih =>
    by_cases hak : a.1 = k
    · have h1 : (decide (a.1 ≠ k)) = false := by simp [hak]
      have h2 : (decide (a.1 = k')) = false := by
        simp only [decide_eq_false_iff_not]
        rw [hak]
        exact fun hh => h hh.symm
      simp only [List.filter_cons, h1, Bool.false_eq_true, if_false, List.find?, h2]
      exact ih
    · have h1 : (decide (a.1 ≠ k)) = true := by simp [hak]
      simp only [List.filter_cons, h1, if_true]
      by_cases hak' : a.1 = k'
      · have h2 : (decide (a.1 = k')) = true := by simp [hak']
        simp only [List.find?, h2]
      · have h2 : (decide (a.1 = k')) = false := by simp [hak']
        simp only [List.find?, h2]
        exact ih

theorem lookupAssoc_putAssoc_ne {α : Type} (st : List (String × α)) {k k' : String}
    (v : α) (h : k' ≠ k) :
    lookupAssoc (putAssoc st k v) k' = lookupAssoc st k' := by
  have h2 : (decide (k = k')) = false := by
    simp only [decide_eq_false_iff_not]
    exact fun hh => h hh.symm
  simp only [lookupAssoc, putAssoc, List.find?, h2]
  rw [find?_filter_ne h st]

theorem lookupAssoc_delAssoc_self {α : Type} (st : List (String × α)) (k : String) :
    lookupAssoc (delAssoc st k) k = none := by
  induction st with
  | nil => rfl
  | cons a st ih =>
    by_cases hak : a.1 = k
    · have h1 : (decide (a.1 ≠ k)) = false := by simp [hak]
      simp only [delAssoc, List.filter_cons, h1, Bool.false_eq_true, if_false]
      exact ih
    · have h1 : (decide (a.1 ≠ k)) = true := by simp [hak]
      have h2 : (decide (a.1 = k)) = false := by simp [hak]
      simp only [delAssoc, List.filter_cons, h1, if_true, lookupAssoc, List.find?, h2]
      exact ih

theorem lookupAssoc_delAssoc_ne {α : Type} (st : List (String × α)) {k k' : String}
    (h : k' ≠ k) :
    lookupAssoc (delAssoc st k) k' = lookupAssoc st k' := by
  simp only [lookupAssoc, delAssoc]
  rw [find?_filter_ne h st]

theorem putAssoc_putAssoc_same {α : Type} (st : List (String × α)) (k : String) (v w : α) :
    putAssoc (putAssoc st k v) k w = putAssoc st k w := by
  simp only [putAssoc, List.filter_cons]
  have h1 : (decide (k ≠ k) : Bool) = false := by simp
  simp only [h1, if_neg, Bool.false_eq_true, not_false_iff, List.filter_filter]
  congr 1
  apply List.filter_congr
  intro a _
  simp [Bool.and_self]

theorem lookupAssoc_putFold_isSome {k : String} :
    ∀ (rs : List Rec) (st : List (String × Rec)),
      (lookupAssoc st k).isSome → (lookupAssoc (putFold st rs) k).isSome
  | [], _, h => h
  | r :: rs, st, h => by
    have hstep : (lookupAssoc (putAssoc st (r.id.getD "") r) k).isSome := by
      by_cases hk : k = r.id.getD ""
      · subst hk
        rw [lookupAssoc_putAssoc_self]
        rfl
      · rwa [lookupAssoc_putAssoc_ne st r hk]
    exact lookupAssoc_putFold_isSome rs (putAssoc st (r.id.getD "") r) hstep

theorem lookupAssoc_putFold_mem :
    ∀ (rs : List Rec) (st : List (String × Rec)) (r : Rec), r ∈ rs →
      (lookupAssoc (putFold st rs) (r.id.getD "")).isSome
  | x :: rs, st, r, hmem => by
    rcases List.mem_cons.mp hmem with hrx | hmem'
    · subst hrx
      have : (lookupAssoc (putAssoc st (r.id.getD "") r) (r.id.getD "")).isSome := by
        rw [lookupAssoc_putAssoc_self]; rfl
      exact lookupAssoc_putFold_isSome rs _ this
    · exact lookupAssoc_putFold_mem rs _ r hmem'

/-- C9: applying a push-channel delete for an identity not present locally
completes without error (in the model `deleteRecord` and the `delete`
branch of `handleDataChange` are total) and leaves `metadata.totalCount`
unchanged; more generally `deleteRecord` removes only the binding under
the given id and refreshes only `lastUpdated`/`lastSyncTime`: records
under every other identity, `totalCount`, `lastChangeLogId` and both
aggregate caches are untouched, whether or not the identity existed. -/
theorem deleteRecord_frame (tz now : Int) (recordId : String) (r : Rec) (db : DB) :
    lookupAssoc (deleteRecord now recordId db).store recordId = none ∧
    (∀ k, k ≠ recordId →
      lookupAssoc (deleteRecord now recordId db).store k = lookupAssoc db.store k) ∧
    (deleteRecord now recordId db).meta.map Meta.totalCount
      = db.meta.map Meta.totalCount ∧
    (deleteRecord now recordId db).meta.map Meta.lastChangeLogId
      = db.meta.map Meta.lastChangeLogId ∧
    (deleteRecord now recordId db).statsCache = db.statsCache ∧
    (deleteRecord now recordId db).dataStoreCache = db.dataStoreCache ∧
    (r.id = some recordId →
      handleDataChange tz now "delete" r db = deleteRecord now recordId db) := by
  obtain ⟨st, meta, sc, dc⟩ := db
  refine ⟨?_, ?_, ?_, ?_, rfl, rfl, ?_⟩
  · exact lookupAssoc_delAssoc_self st recordId
  · intro k hk
    exact lookupAssoc_delAssoc_ne st hk
  · cases meta <;> rfl
  · cases meta <;> rfl
  · intro hid
    simp only [handleDataChange, hid]
    rw [if_neg (by decide), if_pos (by decide)]

/-- Witness for C9 at a concrete database: deleting the absent id `X`
leaves the record under `A` and the total count untouched. -/
theorem deleteRecord_frame_witness :
    lookupAssoc (deleteRecord 5 "X" exStatsDb).store "A"
      = lookupAssoc exStatsDb.store "A" :=
  (deleteRecord_frame 0 5 "X" exRecA exStatsDb).2.1 "A" (by decide)

/-- C10: `parseTimeToTimestamp` is total and never throws: numbers at most
`10^12` are seconds and are multiplied by 1000, larger numbers pass
through; a `Date` yields its `getTime()`; `null`/`undefined`/unrecognized
values yield `0`; every string yields a number — any string rejected by
all of `parseLocalTime`'s formats yields `0` — and a record standardized
with such a malformed (truthy) `start_time` string is persisted with
`timestamp` `0`. -/
theorem parseTimeToTimestamp_total (tz : Int) :
    (∀ n : Int, parseTimeToTimestamp tz (some (.num n))
      = some (if n ≤ 1000000000000 then n * 1000 else n)) ∧
    (∀ t : JsNum, parseTimeToTimestamp tz (some (.date t)) = t) ∧
    parseTimeToTimestamp tz none = some 0 ∧
    (∀ s : String, (parseTimeToTimestamp tz (some (.str s))).isSome) ∧
    (∀ s : String, parseLocalTime tz (cleanTimeString s) = none →
      parseTimeToTimestamp tz (some (.str s)) = some 0) ∧
    (∀ (gen s : String) (r : Rec), r.start_time = some (.str s) → s ≠ "" →
      parseLocalTime tz (cleanTimeString s) = none →
      (standardizeRecord tz gen r).timestamp = .num 0) := by
  have hstr : ∀ s : String, parseLocalTime tz (cleanTimeString s) = none →
      parseTimeToTimestamp tz (some (.str s)) = some 0 := by
    intro s hs
    simp only [parseTimeToTimestamp]
    rw [hs]
  refine ⟨?_, fun _ => rfl, rfl, ?_, hstr, ?_⟩
  · intro n
    simp only [parseTimeToTimestamp]
    rcases lt_or_ge 1000000000000 n with h | h
    · rw [if_pos h, if_neg (by omega)]
    · rw [if_neg (by omega), if_pos (by omega)]
  · intro s
    simp only [parseTimeToTimestamp]
    cases parseLocalTime tz (cleanTimeString s) <;> rfl
  · intro gen s r hst hne hfail
    simp only [standardizeRecord, hst]
    rw [if_pos (by simp [TimeValue.truthy, hst, hne])]
    simp only [hst, hstr s hfail, jsNumToTs]

/-- Witness for C10: the malformed string `garbage` parses to `0`. -/
theorem parseTimeToTimestamp_total_witness :
    parseTimeToTimestamp 480 (some (.str "garbage")) = some 0 :=
  (parseTimeToTimestamp_total 480).2.2.2.2.1 "garbage" (by decide)

/-- Counterexample to C2 as stated: after an accepted write
(`updateRecord` of a record with id `A`), `getStatistics` still returns
the previously cached `stats_bucket` aggregate — the entry is NOT made
unavailable by the write. -/
theorem write_keeps_stale_stats_counterexample :
    (updateRecord 0 2000 exRecA exStatsDb).map (getStatistics "bucket")
      = some (some "stale") ∧
    (updateRecord 0 2000 exRecA exStatsDb).map (getStatistics "bucket")
      ≠ some (none : Option String) := by
  exact ⟨by decide, by decide⟩

/-- C2 amended: none of the accepted writes touches either aggregate
cache — `getStatistics` returns exactly what it returned before the
write, and the `dataStoreCache` entries pass through unchanged.  A cached
aggregate becomes unavailable only through explicit clearing
(`clearStatisticsCache` / `clearDataStoreBucketsCache`) or, for bucket
entries, through `loadDataStoreBuckets`'s staleness check against a
truthy `lastSyncTime` newer than the entry. -/
theorem writes_leave_aggregate_caches (tz now : Int) (r : Rec) (rs : List Rec)
    (k ty : String) (db : DB) :
    (∀ db1, updateRecord tz now r db = some db1 →
      getStatistics ty db1 = getStatistics ty db ∧
      db1.dataStoreCache = db.dataStoreCache) ∧
    (∀ db1 n, batchUpdateRecords tz now rs db = some (db1, n) →
      getStatistics ty db1 = getStatistics ty db ∧
      db1.dataStoreCache = db.dataStoreCache) ∧
    (getStatistics ty (appendData tz now rs db).1 = getStatistics ty db ∧
      (appendData tz now rs db).1.dataStoreCache = db.dataStoreCache) ∧
    getStatistics ty (deleteRecord now k db) = getStatistics ty db ∧
    getStatistics ty (clearStatisticsCache db) = none ∧
    (∀ (now2 lst : Int) (e : DSEntry),
      lookupAssoc db.dataStoreCache ("datastore_" ++ ty) = some e →
      lst ≠ 0 → e.timestamp < lst →
      loadDataStoreBuckets now2 ty (some lst) db = none) := by
  refine ⟨?_, ?_, ?_, rfl, rfl, ?_⟩
  · intro db1 h
    simp only [updateRecord] at h
    cases hfix : (fixTimestamp tz r).id with
    | none =>
      simp only [hfix] at h
      cases h
    | some kk =>
      simp only [hfix] at h
      cases h
      exact ⟨rfl, rfl⟩
  · intro db1 n h
    simp only [batchUpdateRecords] at h
    split at h
    · cases h
      exact ⟨rfl, rfl⟩
    · split at h
      · cases h
        exact ⟨rfl, rfl⟩
      · cases h
  · unfold appendData
    split
    · exact ⟨rfl, rfl⟩
    · exact ⟨rfl, rfl⟩
  · intro now2 lst e he hne hlt
    simp only [loadDataStoreBuckets, he]
    rw [if_pos ⟨by simp [jsTruthyIntOpt, hne], by simpa using hlt⟩]

/-- Witness for the amended C2 at concrete inputs: the `datastore_day`
entry cached at time 1000 is unavailable once `lastSyncTime` is 2000. -/
theorem writes_leave_aggregate_caches_witness :
    loadDataStoreBuckets 3000 "day" (some 2000) exStatsDb = none :=
  (writes_leave_aggregate_caches 0 5 exRecA [] "X" "day" exStatsDb).2.2.2.2.2 3000 2000
    { buckets := "b", recordCount := 3, timestamp := 1000 }
    (by decide) (by decide) (by decide)

/-- Counterexample to C3 as stated: `appendData` of the same record twice
(identical identity and payload) bumps `metadata.totalCount` both times —
after two applications the count is 12, after one it is 11, so the double
application does not equal the single one. -/
theorem appendData_twice_counterexample :
    ((appendData 0 2000 [exRecA] exStatsDb).1.meta.map Meta.totalCount
      = some (some 11)) ∧
    ((appendData 0 2100 [exRecA] (appendData 0 2000 [exRecA] exStatsDb).1).1.meta.map
        Meta.totalCount = some (some 12)) ∧
    (some (some (12 : Int)) : Option (Option Int)) ≠ some (some 11) := by
  exact ⟨by decide, by decide, by decide⟩

/-- `batchUpdateRecords` on a one-record list whose (timestamp-fixed)
record carries an id: one keyed `put` plus the metadata refresh. -/
theorem batchUpdateRecords_singleton (tz now : Int) (r : Rec) (db : DB) (key : String)
    (hr : r.id = some key) :
    batchUpdateRecords tz now [r] db
      = some ({ db with
          store := putAssoc db.store key (fixTimestamp tz r),
          meta := some { (db.meta.getD (defaultMetaFull now)) with
            lastUpdated := some now, lastSyncTime := some now } }, 1) := by
  simp [batchUpdateRecords, putFold, hr, Option.getD_some]

/-- A record with its own `id` standardizes independently of the generated
fallback id, and keeps that id. -/
theorem standardizeRecord_of_id (tz : Int) (gen gen2 : String) {r : Rec} {kk : String}
    (h : r.id = some kk) :
    standardizeRecord tz gen r = standardizeRecord tz gen2 r ∧
    (standardizeRecord tz gen r).id = some kk := by
  constructor
  · simp only [standardizeRecord, h]
  · simp only [standardizeRecord, h]
    split <;> rfl

/-- C3 amended: `updateRecord` and `batchUpdateRecords` are idempotent —
re-applying the identical record changes neither the store contents, nor
`totalCount` (which they never touch), nor the aggregate cache; `appendData`
is idempotent on the store contents but adds the batch size to
`metadata.totalCount` on every application, so its second application
leaves the count one higher than a single application. -/
theorem upsert_idempotence (tz n1 n2 : Int) (r : Rec) (kk : String) (db : DB) :
    (∀ db1 db2, updateRecord tz n1 r db = some db1 →
      updateRecord tz n2 r db1 = some db2 →
      db2.store = db1.store ∧
      db2.meta.map Meta.totalCount = db1.meta.map Meta.totalCount ∧
      db2.statsCache = db1.statsCache) ∧
    (∀ db1 db2 c1 c2, batchUpdateRecords tz n1 [r] db = some (db1, c1) →
      batchUpdateRecords tz n2 [r] db1 = some (db2, c2) →
      db2.store = db1.store ∧
      db2.meta.map Meta.totalCount = db1.meta.map Meta.totalCount ∧
      db2.statsCache = db1.statsCache) ∧
    (r.id = some kk →
      ((appendData tz n1 [r] ((appendData tz n1 [r] db).1)).1.store
        = (appendData tz n1 [r] db).1.store) ∧
      ∃ t : Int,
        (appendData tz n1 [r] db).1.meta.map Meta.totalCount = some (some t) ∧
        (appendData tz n1 [r] ((appendData tz n1 [r] db).1)).1.meta.map Meta.totalCount
          = some (some (t + 1))) := by
  refine ⟨?_, ?_, ?_⟩
  · intro db1 db2 h1 h2
    simp only [updateRecord] at h1 h2
    cases hfix : (fixTimestamp tz r).id with
    | none =>
      simp only [hfix] at h1
      cases h1
    | some key =>
      simp only [hfix] at h1 h2
      cases h1
      cases h2
      refine ⟨putAssoc_putAssoc_same db.store key _ _, rfl, rfl⟩
  · intro db1 db2 c1 c2 h1 h2
    cases hfix : r.id with
    | none => simp [batchUpdateRecords, hfix] at h1
    | some key =>
      rw [batchUpdateRecords_singleton tz n1 r db key hfix] at h1
      simp only [Option.some.injEq, Prod.mk.injEq] at h1
      obtain ⟨hdb1, -⟩ := h1
      rw [batchUpdateRecords_singleton tz n2 r db1 key hfix] at h2
      simp only [Option.some.injEq, Prod.mk.injEq] at h2
      obtain ⟨hdb2, -⟩ := h2
      subst hdb1
      subst hdb2
      refine ⟨putAssoc_putAssoc_same db.store _ _ _, rfl, rfl⟩
  · intro hk
    have hid : (standardizeRecord tz (appendGenId n1) r).id = some kk :=
      (standardizeRecord_of_id tz (appendGenId n1) (appendGenId n1) hk).2
    constructor
    · simp only [appendData, List.isEmpty_cons, Bool.false_eq_true, if_false,
        List.map, putFold, List.foldl, hid, Option.getD_some]
      exact putAssoc_putAssoc_same db.store kk _ _
    · exact ⟨_, rfl, rfl⟩

/-- Witness for the amended C3: re-applying `updateRecord` of the fixture
record leaves the store where the first application put it. -/
theorem upsert_idempotence_witness :
    ((updateRecord 0 3000 exRecA ((updateRecord 0 2000 exRecA exStatsDb).getD emptyDB)).getD
        emptyDB).store
      = ((updateRecord 0 2000 exRecA exStatsDb).getD emptyDB).store := by
  have h := (upsert_idempotence 0 2000 3000 exRecA "A" exStatsDb).1
    ((updateRecord 0 2000 exRecA exStatsDb).getD emptyDB)
    ((updateRecord 0 3000 exRecA ((updateRecord 0 2000 exRecA exStatsDb).getD emptyDB)).getD
      emptyDB)
    (by decide) (by decide)
  exact h.1

/-- Counterexample to C4 as stated: the same record (carrying a truthy
precomputed `timestamp` of `123` and `start_time`
`2024-01-01 00:00:00`) is persisted with `timestamp` `123` by the
live-push `updateRecord` path (which never recomputes a truthy timestamp)
but with the recomputed value `1704038400000` by the `appendData` path —
two ingestion paths assign different timestamps. -/
theorem timestamp_paths_counterexample :
    ((updateRecord 480 2000 exTsRec emptyDB).map
        (fun db => (lookupAssoc db.store "A").map Rec.timestamp)
      = some (some (.num 123))) ∧
    ((lookupAssoc (appendData 480 2000 [exTsRec] emptyDB).1.store "A").map Rec.timestamp
      = some (.num 1704038400000)) ∧
    JsTs.num 123 ≠ JsTs.num 1704038400000 := by
  exact ⟨by decide, by decide, by decide⟩

/-- C4 amended: only the `appendData`/bulk-preprocessing standardization
recomputes `timestamp` unconditionally from a truthy `start_time`, always
through the shared timezone-naive `parseTimeToTimestamp` (so those two
paths agree for every record); `updateRecord`/`batchUpdateRecords` keep a
truthy incoming `timestamp` untouched and derive a missing one with the
builtin `Date` string parser instead, which disagrees with the naive rule
— e.g. on the date-only string `2024-01-02` at UTC+8 the builtin gives
the UTC-midnight epoch and the naive rule the local-midnight epoch. -/
theorem timestamp_derivation_paths (tz : Int) (gen gen2 s : String) (r : Rec) :
    (TimeValue.truthy r.start_time = true →
      (standardizeRecord tz gen r).timestamp
        = jsNumToTs (parseTimeToTimestamp tz r.start_time) ∧
      (standardizeRecord tz gen r).timestamp
        = (standardizeRecord tz gen2 r).timestamp) ∧
    (r.timestamp.falsy = false → (fixTimestamp tz r).timestamp = r.timestamp) ∧
    (r.timestamp.falsy = true → r.start_time = some (.str s) →
      (fixTimestamp tz r).timestamp = ecmaDateParse tz s) ∧
    ecmaDateParse 480 "2024-01-02" = .num 1704153600000 ∧
    jsNumToTs (parseTimeToTimestamp 480 (some (.str "2024-01-02")))
      = .num 1704124800000 := by
  refine ⟨?_, ?_, ?_, by decide, by decide⟩
  · intro h
    constructor
    · simp only [standardizeRecord, if_pos h]
    · simp only [standardizeRecord, if_pos h]
  · intro h
    simp only [fixTimestamp, h, Bool.false_eq_true, if_false]
  · intro h hst
    simp only [fixTimestamp, h, if_true, hst]

/-- Witness for the amended C4: the fixture record's `start_time` is
truthy, and standardization recomputes its timestamp through
`parseTimeToTimestamp`. -/
theorem timestamp_derivation_paths_witness :
    (standardizeRecord 480 "g" exTsRec).timestamp
      = jsNumToTs (parseTimeToTimestamp 480 exTsRec.start_time) :=
  ((timestamp_derivation_paths 480 "g" "h" "x" exTsRec).1 (by decide)).1

/-- C5: catch-up reconciliation is atomic and silent on failure.  At the
initial cursor value `0`, `checkAndPerformCatchup` resolves to
`{hasNewData: false, count: 0}` with the database untouched, and its
outcome does not depend on any response (no remote query is consulted);
a thrown fetch, a non-OK status, a malformed body, and an empty records
list each leave the database unchanged and resolve to the same no-data
result instead of throwing. -/
theorem catchup_silent_on_failure (tz now : Int) (c m f : Nat)
    (resp resp2 : CatchupResponse) (db : DB) :
    (getLastChangeLogId db = 0 →
      checkAndPerformCatchup tz now resp db = (db, noNewData) ∧
      checkAndPerformCatchup tz now resp db = checkAndPerformCatchup tz now resp2 db) ∧
    performCatchupSyncByChangeLogId tz now c .netError db = (db, noNewData) ∧
    performCatchupSyncByChangeLogId tz now c .httpError db = (db, noNewData) ∧
    performCatchupSyncByChangeLogId tz now c .badBody db = (db, noNewData) ∧
    performCatchupSyncByChangeLogId tz now c (.ok [] m f) db = (db, noNewData) := by
  refine ⟨?_, rfl, rfl, rfl, rfl⟩
  intro h0
  constructor <;> simp [checkAndPerformCatchup, h0]

/-- Witness for C5: on a fresh database (cursor `0`) even a response full
of data changes nothing. -/
theorem catchup_silent_on_failure_witness :
    checkAndPerformCatchup 480 2000 (.ok [planRec "A"] 105 0) emptyDB
      = (emptyDB, noNewData) :=
  ((catchup_silent_on_failure 480 2000 0 0 0 (.ok [planRec "A"] 105 0)
      .netError emptyDB).1 (by decide)).1

/-- `getLastChangeLogId` reads back exactly what `saveLastChangeLogId`
persisted. -/
theorem getLastChangeLogId_saveLastChangeLogId (now : Int) (m : Nat) (db : DB) :
    getLastChangeLogId (saveLastChangeLogId now m db) = m := by
  simp [getLastChangeLogId, saveLastChangeLogId]

/-- The conversion-then-fix pipeline keys every record by its `plan_id`. -/
theorem converted_all_isSome (tz : Int) (records : List Rec) :
    ((records.map convertCatchupRecord).map (fixTimestamp tz)).all
        (fun r => r.id.isSome)
      = records.all (fun r => r.plan_id.isSome) := by
  induction records with
  | nil => rfl
  | cons a as ih =>
    simp only [List.map_cons, List.all_cons, ih]
    congr 1
    rw [fixTimestamp_id]
    simp [convertCatchupRecord]

/-- A batch whose (fixed) records do not all carry ids aborts. -/
theorem batchUpdateRecords_fail (tz now : Int) (records : List Rec) (db : DB)
    (h : (records.map (fixTimestamp tz)).all (fun r => r.id.isSome) = false) :
    batchUpdateRecords tz now records db = none := by
  cases records with
  | nil => simp at h
  | cons a as =>
    have hneg : ¬(((a :: as).map (fixTimestamp tz)).all (fun r => r.id.isSome) = true) := by
      rw [h]
      exact Bool.false_ne_true
    unfold batchUpdateRecords
    rw [if_neg (by simp), if_neg hneg]

/-- A non-empty batch whose (fixed) records all carry ids commits: every
record is `put` and the metadata is refreshed. -/
theorem batchUpdateRecords_success (tz now : Int) (records : List Rec) (db : DB)
    (hne : records ≠ [])
    (hall : (records.map (fixTimestamp tz)).all (fun r => r.id.isSome) = true) :
    batchUpdateRecords tz now records db
      = some ({ db with
          store := putFold db.store (records.map (fixTimestamp tz)),
          meta := some { (db.meta.getD (defaultMetaFull now)) with
            lastUpdated := some now, lastSyncTime := some now } }, records.length) := by
  cases records with
  | nil => exact absurd rfl hne
  | cons a as =>
    unfold batchUpdateRecords
    rw [if_neg (by simp), if_pos hall]

/-- C6: a successful catch-up whose response carries a non-empty records
list (each with its `plan_id`) together with a `maxChangeLogId` persists
exactly that watermark as the cursor and leaves every returned record's
identity present in the local store. -/
theorem catchup_success_applies (tz now : Int) (c m f : Nat) (records : List Rec)
    (db : DB) (hne : records ≠ [])
    (hpid : ∀ r ∈ records, r.plan_id.isSome) :
    (performCatchupSyncByChangeLogId tz now c (.ok records m f) db).2
      = { hasNewData := true, count := records.length, maxChangeLogId := some m } ∧
    getLastChangeLogId
      (performCatchupSyncByChangeLogId tz now c (.ok records m f) db).1 = m ∧
    ∀ r ∈ records, ∀ pid, r.plan_id = some pid →
      (lookupAssoc
        (performCatchupSyncByChangeLogId tz now c (.ok records m f) db).1.store
        pid).isSome := by
  have hie : records.isEmpty = false := by
    cases records with
    | nil => exact absurd rfl hne
    | cons _ _ => rfl
  have hmap_ne : records.map convertCatchupRecord ≠ [] := by
    intro hh
    rw [List.map_eq_nil_iff] at hh
    exact hne hh
  have hall : ((records.map convertCatchupRecord).map (fixTimestamp tz)).all
      (fun r => r.id.isSome) = true := by
    rw [converted_all_isSome, List.all_eq_true]
    intro r hr
    exact hpid r hr
  have hb := batchUpdateRecords_success tz now (records.map convertCatchupRecord) db
    hmap_ne hall
  have hperf : performCatchupSyncByChangeLogId tz now c (.ok records m f) db
      = (saveLastChangeLogId now m { db with
          store := putFold db.store
            ((records.map convertCatchupRecord).map (fixTimestamp tz)),
          meta := some { (db.meta.getD (defaultMetaFull now)) with
            lastUpdated := some now, lastSyncTime := some now } },
        { hasNewData := true, count := records.length, maxChangeLogId := some m }) := by
    simp only [performCatchupSyncByChangeLogId, hie, Bool.false_eq_true, if_false, hb]
  rw [hperf]
  refine ⟨rfl, getLastChangeLogId_saveLastChangeLogId now m _, ?_⟩
  intro r hr pid hpid_eq
  have hx : fixTimestamp tz (convertCatchupRecord r)
      ∈ (records.map convertCatchupRecord).map (fixTimestamp tz) :=
    List.mem_map_of_mem _ (List.mem_map_of_mem _ hr)
  have hkey : (fixTimestamp tz (convertCatchupRecord r)).id.getD "" = pid := by
    rw [fixTimestamp_id]
    simp [convertCatchupRecord, hpid_eq]
  have hsome := lookupAssoc_putFold_mem _ db.store _ hx
  rw [hkey] at hsome
  exact hsome

/-- Witness for C6: the spec's scenario — cursor 100, five records with
`maxChangeLogId = 105` — ends with the cursor exactly 105. -/
theorem catchup_success_applies_witness :
    getLastChangeLogId
      (performCatchupSyncByChangeLogId 480 2000 100 (.ok exCatchup5 105 0) exStatsDb).1
      = 105 :=
  (catchup_success_applies 480 2000 100 105 0 exCatchup5 exStatsDb
    (by decide) (by decide)).2.1

/-- A non-applying attempt (failure, empty response, or aborted batch)
leaves the database untouched. -/
theorem catchupStep_not_applied (tz now : Int) (db : DB) (resp : CatchupResponse)
    (h : appliedMax resp = none) : catchupStep tz now db resp = db := by
  cases resp with
  | netError => rfl
  | httpError => rfl
  | badBody => rfl
  | ok records m f =>
    by_cases hne : records.isEmpty = true
    · simp [catchupStep, performCatchupSyncByChangeLogId, hne]
    · simp only [appliedMax] at h
      split at h
      · cases h
      · rename_i hc
        have hallf : records.all (fun r => r.plan_id.isSome) = false := by
          rcases Bool.eq_false_or_eq_true (records.all fun r => r.plan_id.isSome)
            with ht | hf
          · exact absurd ⟨hne, ht⟩ hc
          · exact hf
        have hbf := batchUpdateRecords_fail tz now (records.map convertCatchupRecord) db
          (by rw [converted_all_isSome]; exact hallf)
        simp [catchupStep, performCatchupSyncByChangeLogId, hne, hbf]

/-- An applying attempt persists its watermark as the new cursor. -/
theorem catchupStep_applied (tz now : Int) (db : DB) (resp : CatchupResponse) (m : Nat)
    (h : appliedMax resp = some m) :
    getLastChangeLogId (catchupStep tz now db resp) = m := by
  cases resp with
  | netError => simp [appliedMax] at h
  | httpError => simp [appliedMax] at h
  | badBody => simp [appliedMax] at h
  | ok records mm f =>
    simp only [appliedMax] at h
    split at h
    · cases h
      rename_i hc
      obtain ⟨hne, hall⟩ := hc
      have hie : records.isEmpty = false := by
        rcases Bool.eq_false_or_eq_true records.isEmpty with ht | hf
        · exact absurd ht hne
        · exact hf
      have hmap_ne : records.map convertCatchupRecord ≠ [] := by
        intro hh
        rw [List.map_eq_nil_iff] at hh
        rw [hh] at hie
        cases hie
      have hb := batchUpdateRecords_success tz now (records.map convertCatchupRecord) db
        hmap_ne (by rw [converted_all_isSome]; exact hall)
      simp [catchupStep, performCatchupSyncByChangeLogId, hie, hb,
        getLastChangeLogId_saveLastChangeLogId]
    · cases h

theorem le_foldl_nat_max : ∀ (l : List Nat) (a : Nat), a ≤ l.foldl Nat.max a
  | [], a => le_refl a
  | x :: l, a => le_trans (Nat.le_max_left a x) (le_foldl_nat_max l (Nat.max a x))

theorem mem_le_foldl_nat_max :
    ∀ (l : List Nat) (a m : Nat), m ∈ l → m ≤ l.foldl Nat.max a
  | x :: l, a, m, h => by
    rcases List.mem_cons.mp h with rfl | h2
    · exact le_trans (Nat.le_max_right a m) (le_foldl_nat_max l _)
    · exact mem_le_foldl_nat_max l _ m h2

/-- Along a contract-respecting run, the final cursor is the running
maximum of the initial cursor and every applied watermark. -/
theorem runCatchups_cursor_eq (tz now : Int) :
    ∀ (resps : List CatchupResponse) (db : DB),
      cursorContract tz now db resps = true →
      getLastChangeLogId (runCatchups tz now db resps)
        = (appliedMaxes resps).foldl Nat.max (getLastChangeLogId db) := by
  intro resps
  induction resps with
  | nil => intro db _; rfl
  | cons r rs ih =>
    intro db hc
    simp only [cursorContract, Bool.and_eq_true] at hc
    obtain ⟨h1, h2⟩ := hc
    cases ham : appliedMax r with
    | none =>
      have hstep := catchupStep_not_applied tz now db r ham
      show getLastChangeLogId (runCatchups tz now (catchupStep tz now db r) rs) = _
      simp only [appliedMaxes, List.filterMap_cons, ham]
      rw [hstep] at h2 ⊢
      exact ih db h2
    | some m =>
      have hm : getLastChangeLogId db ≤ m := by
        rw [ham] at h1
        exact of_decide_eq_true h1
      have hcur := catchupStep_applied tz now db r m ham
      show getLastChangeLogId (runCatchups tz now (catchupStep tz now db r) rs) = _
      rw [ih (catchupStep tz now db r) h2, hcur]
      simp only [appliedMaxes, List.filterMap_cons, ham, List.foldl_cons]
      have hmax : Nat.max (getLastChangeLogId db) m = m := Nat.max_eq_right hm
      rw [hmax]

/-- Along a contract-respecting run with at least one applied attempt, the
final cursor is one of the applied watermarks. -/
theorem runCatchups_cursor_mem (tz now : Int) :
    ∀ (resps : List CatchupResponse) (db : DB),
      cursorContract tz now db resps = true →
      appliedMaxes resps ≠ [] →
      getLastChangeLogId (runCatchups tz now db resps) ∈ appliedMaxes resps := by
  intro resps
  induction resps with
  | nil => intro db _ hne; exact absurd rfl hne
  | cons r rs ih =>
    intro db hc hne
    simp only [cursorContract, Bool.and_eq_true] at hc
    obtain ⟨h1, h2⟩ := hc
    cases ham : appliedMax r with
    | none =>
      have hstep := catchupStep_not_applied tz now db r ham
      simp only [appliedMaxes, List.filterMap_cons, ham] at hne ⊢
      show getLastChangeLogId (runCatchups tz now (catchupStep tz now db r) rs) ∈ _
      rw [hstep] at h2 ⊢
      exact ih db h2 hne
    | some m =>
      have hcur := catchupStep_applied tz now db r m ham
      simp only [appliedMaxes, List.filterMap_cons, ham]
      show getLastChangeLogId (runCatchups tz now (catchupStep tz now db r) rs) ∈ _
      by_cases hrs : appliedMaxes rs = []
      · have heq := runCatchups_cursor_eq tz now rs (catchupStep tz now db r) h2
        rw [hrs] at heq
        simp only [List.foldl_nil] at heq
        rw [heq, hcur]
        exact List.mem_cons_self _ _
      · exact List.mem_cons_of_mem _ (ih (catchupStep tz now db r) h2 hrs)

/-- C1: under the incremental endpoint's contract (each applying
response's `maxChangeLogId` is at least the cursor it was queried with),
the persisted cursor is monotonically non-decreasing across any sequence
of catch-ups — failed or empty attempts change nothing — and after the
run it equals the maximum `maxChangeLogId` of the applied responses: it
dominates every applied watermark and, as soon as one attempt applied, is
itself one of them. -/
theorem changeLogCursor_monotonic (tz now : Int) (db : DB)
    (resps : List CatchupResponse)
    (hc : cursorContract tz now db resps = true) :
    getLastChangeLogId db ≤ getLastChangeLogId (runCatchups tz now db resps) ∧
    (∀ m ∈ appliedMaxes resps,
      m ≤ getLastChangeLogId (runCatchups tz now db resps)) ∧
    (appliedMaxes resps ≠ [] →
      getLastChangeLogId (runCatchups tz now db resps) ∈ appliedMaxes resps) := by
  have heq := runCatchups_cursor_eq tz now resps db hc
  refine ⟨?_, ?_, fun hne => runCatchups_cursor_mem tz now resps db hc hne⟩
  · rw [heq]
    exact le_foldl_nat_max _ _
  · intro m hm
    rw [heq]
    exact mem_le_foldl_nat_max _ _ m hm

/-- Witness for C1: starting from cursor 100, the run
apply(105) → fail → apply(120) never regresses below 100 (it ends at the
maximum applied watermark, 120). -/
theorem changeLogCursor_monotonic_witness :
    100 ≤ getLastChangeLogId (runCatchups 480 2000 exStatsDb exCatchupResps) ∧
    getLastChangeLogId (runCatchups 480 2000 exStatsDb exCatchupResps) = 120 := by
  have h := (changeLogCursor_monotonic 480 2000 exStatsDb exCatchupResps (by decide)).1
  have h0 : getLastChangeLogId exStatsDb = 100 := by decide
  rw [h0] at h
  exact ⟨h, by decide⟩

/-- From a quiesced sync-manager state (heartbeat interval cleared, no
close event in flight) no event changes the reconnect schedule. -/
theorem wsStep_quiesced (s : WsState) (e : WsEvent) (h : wsQuiesced s) :
    wsQuiesced (wsStep s e) ∧
    (wsStep s e).reconnectsScheduled = s.reconnectsScheduled := by
  obtain ⟨hh, hcp⟩ := h
  cases e with
  | tick =>
    have hneg : ¬(s.heartbeatOn = true ∧ s.wsOpen = true) := by
      simp [hh]
    simp only [wsStep, if_neg hneg]
    exact ⟨⟨hh, hcp⟩, trivial⟩
  | heartbeatMsg => exact ⟨⟨hh, hcp⟩, rfl⟩
  | closeEvent wasClean =>
    have hneg : ¬(s.closePending = true) := by simp [hcp]
    simp only [wsStep, if_neg hneg]
    exact ⟨⟨hh, hcp⟩, trivial⟩

theorem wsRun_quiesced :
    ∀ (es : List WsEvent) (s : WsState), wsQuiesced s →
      (wsRun s es).reconnectsScheduled = s.reconnectsScheduled
  | [], _, _ => rfl
  | e :: es, s, h => by
    have hs := wsStep_quiesced s e h
    show (wsRun (wsStep s e) es).reconnectsScheduled = _
    rw [wsRun_quiesced es (wsStep s e) hs.1, hs.2]

/-- C8: from a connected state with the heartbeat running, two elapsed
heartbeat intervals without an inbound heartbeat leave the socket open and
schedule nothing; the third closes the socket (`missedHeartbeats` reaches
`maxMissedHeartbeats = 3`) while still scheduling nothing; the resulting
close event — non-clean, the peer being unresponsive — schedules exactly
one reconnect, and no continuation of the run can ever schedule a second
one: one reconnect, not three and not zero. -/
theorem heartbeat_timeout_reconnects_once :
    (wsRun wsConnectedState [.tick, .tick]).wsOpen = true ∧
    (wsRun wsConnectedState [.tick, .tick]).reconnectsScheduled = 0 ∧
    (wsRun wsConnectedState [.tick, .tick, .tick]).wsOpen = false ∧
    (wsRun wsConnectedState [.tick, .tick, .tick]).missedHeartbeats
      = maxMissedHeartbeats ∧
    (wsRun wsConnectedState [.tick, .tick, .tick]).reconnectsScheduled = 0 ∧
    (wsRun wsConnectedState
        [.tick, .tick, .tick, .closeEvent false]).reconnectsScheduled = 1 ∧
    ∀ es : List WsEvent,
      (wsRun (wsRun wsConnectedState [.tick, .tick, .tick, .closeEvent false])
          es).reconnectsScheduled = 1 := by
  refine ⟨by decide, by decide, by decide, by decide, by decide, by decide, ?_⟩
  intro es
  have hq : wsQuiesced
      (wsRun wsConnectedState [.tick, .tick, .tick, .closeEvent false]) :=
    ⟨by decide, by decide⟩
  rw [wsRun_quiesced es _ hq]
  decide

/-- One atomic step of the persist stage preserves the lock invariant. -/
theorem lockInv_step {s t : LoadState} (inv : LockInv s) (st : LoadStep s t) :
    LockInv t := by
  obtain ⟨hnd, hmem, huniq⟩ := inv
  cases st with
  | push p n => exact ⟨hnd, hmem, huniq⟩
  | drain i p k hold => exact ⟨hnd, hmem, huniq⟩
  | acquire i p hidle hpend hnot =>
    refine ⟨List.nodup_cons.mpr ⟨hnot, hnd⟩, ?_, ?_⟩ <;> dsimp only
    · intro q
      constructor
      · intro hq
        rcases List.mem_cons.mp hq with rfl | hq2
        · exact ⟨i, by rw [Function.update_same]⟩
        · obtain ⟨j, hj⟩ := (hmem q).mp hq2
          have hji : j ≠ i := by
            intro hh
            subst hh
            rw [hidle] at hj
            cases hj
          exact ⟨j, by rw [Function.update_noteq hji]; exact hj⟩
      · rintro ⟨j, hj⟩
        by_cases hji : j = i
        · subst hji
          rw [Function.update_same] at hj
          cases hj
          exact List.mem_cons_self _ _
        · rw [Function.update_noteq hji] at hj
          exact List.mem_cons_of_mem _ ((hmem q).mpr ⟨j, hj⟩)
    · intro a b q ha hb
      by_cases hai : a = i <;> by_cases hbi : b = i
      · rw [hai, hbi]
      · subst hai
        rw [Function.update_same] at ha
        rw [Function.update_noteq hbi] at hb
        cases ha
        exact absurd ((hmem p).mpr ⟨b, hb⟩) hnot
      · subst hbi
        rw [Function.update_same] at hb
        rw [Function.update_noteq hai] at ha
        cases hb
        exact absurd ((hmem p).mpr ⟨a, ha⟩) hnot
      · rw [Function.update_noteq hai] at ha
        rw [Function.update_noteq hbi] at hb
        exact huniq a b q ha hb
  | release i p hold =>
    refine ⟨hnd.erase p, ?_, ?_⟩ <;> dsimp only
    · intro q
      constructor
      · intro hq
        obtain ⟨hqp, hql⟩ := (List.Nodup.mem_erase_iff hnd).mp hq
        obtain ⟨j, hj⟩ := (hmem q).mp hql
        have hji : j ≠ i := by
          intro hh
          subst hh
          rw [hold] at hj
          cases hj
          exact hqp rfl
        exact ⟨j, by rw [Function.update_noteq hji]; exact hj⟩
      · rintro ⟨j, hj⟩
        by_cases hji : j = i
        · subst hji
          rw [Function.update_same] at hj
          cases hj
        · rw [Function.update_noteq hji] at hj
          have hql : q ∈ s.lockedPartitions := (hmem q).mpr ⟨j, hj⟩
          have hqp : q ≠ p := by
            intro hh
            subst hh
            exact hji (huniq j i q hj hold)
          exact (List.Nodup.mem_erase_iff hnd).mpr ⟨hqp, hql⟩
    · intro a b q ha hb
      have hai : a ≠ i := by
        intro hh
        subst hh
        rw [Function.update_same] at ha
        cases ha
      have hbi : b ≠ i := by
        intro hh
        subst hh
        rw [Function.update_same] at hb
        cases hb
      rw [Function.update_noteq hai] at ha
      rw [Function.update_noteq hbi] at hb
      exact huniq a b q ha hb

/-- The lock invariant holds in every reachable state of the persist
stage. -/
theorem lockInv_reachable (pending0 : String → Nat) (s : LoadState)
    (h : LoadReachable pending0 s) : LockInv s := by
  induction h with
  | start =>
    refine ⟨List.nodup_nil, ?_, ?_⟩
    · intro p
      simp [loadStart]
    · intro i j p hi hj
      simp [loadStart] at hi
  | step h1 h2 ih => exact lockInv_step ih h2

/-- C7: in every interleaving of the bulk-load workers' atomic steps, at
most one storage worker at a time holds a given partition id — no two
concurrent `storePartitionedBatch` persist operations are ever active
against the same partition — and a partition id is in the lock set
exactly while some worker is between acquiring and releasing it, so the
lock is released (the id leaves the set) even when the batch write
fails. -/
theorem partition_lock_exclusive (pending0 : String → Nat) (s : LoadState)
    (h : LoadReachable pending0 s) :
    (∀ i j p, s.workers i = .holding p → s.workers j = .holding p → i = j) ∧
    (∀ p, p ∈ s.lockedPartitions ↔ ∃ i, s.workers i = .holding p) := by
  have inv := lockInv_reachable pending0 s h
  exact ⟨inv.2.2, inv.2.1⟩

/-- Witness for C7 at a concrete reachable state: after worker 0 acquires
`2024_Q1` from the start state, the partition is in the lock set. -/
theorem partition_lock_exclusive_witness :
    "2024_Q1" ∈ exLoadState.lockedPartitions :=
  ((partition_lock_exclusive exLoadPending exLoadState
      (.step .start (.acquire 0 "2024_Q1" rfl (by decide) (by decide)))).2
    "2024_Q1").mpr ⟨0, rfl⟩

end Aliyun
